import Mathlib

/-!
Shallow embedding of the `dshot-frame` crate (`src/lib.rs`): the DShot
`Frame` codec (constructors, CRC, accessors) and the PWM duty-cycle
signal generator.  Rust `u16` values are modelled as `Nat` with explicit
`% 65536` wherever the source's `u16` arithmetic can wrap (`<<`, `*`,
and the subtraction in `speed`), matching release-mode wrapping
semantics.
-/

namespace Dshot

/-- The `Frame` struct: a frame of two bytes that gets sent over the wire.
`inner` is the raw `u16` word, modelled as a `Nat` (constructed frames keep
`inner < 65536`). -/
structure Frame where
  inner : Nat
  deriving Repr, DecidableEq

/-- `Frame::compute_crc`: computes the CRC based on the first 12 bits and ORs
it into `inner`.  Source: `let value = self.inner >> 4;
let crc = (value ^ (value >> 4) ^ (value >> 8)) & 0x0F; self.inner |= crc;` -/
def Frame.compute_crc (f : Frame) : Frame :=
  let value := f.inner >>> 4
  let crc := (value ^^^ (value >>> 4) ^^^ (value >>> 8)) &&& 0x0F
  { inner := f.inner ||| crc }

/-- `Frame::new(speed, request_telemetry)`: creates a new frame with the given
speed (0-1999) and telemetry request; `None` if the speed is out of bounds.
The left shift is `u16` arithmetic, hence the `% 65536`. -/
def Frame.new (speed : Nat) (request_telemetry : Bool) : Option Frame :=
  if speed ≥ 2000 then none
  else
    let translated_throttle := ((speed + 48) <<< 5) % 65536
    let frame : Frame := { inner := translated_throttle }
    let frame := if request_telemetry then { inner := frame.inner ||| 0x10 } else frame
    some frame.compute_crc

/-- The `Command` enum: fixed commands that occupy the lower 48 speed values,
with the explicit discriminants of the source (gaps at 15-19 and 36-41). -/
inductive Command where
  | MotorStop
  | Beep1
  | Beep2
  | Beep3
  | Beep4
  | Beep5
  | ESCInfo
  | SpinDirection1
  | SpinDirection2
  | ThreeDModeOn
  | ThreeDModeOff
  | SettingsRequest
  | SettingsSave
  | ExtendedTelemetryEnable
  | ExtendedTelemetryDisable
  | SpinDirectionNormal
  | SpinDirectonReversed
  | Led0On
  | Led1On
  | Led2On
  | Led3On
  | Led0Off
  | Led1Off
  | Led2Off
  | Led3Off
  | AudioStreamModeToggle
  | SilentModeToggle
  | SignalLineTelemetryEnable
  | SignalLineTelemetryDisable
  | SignalLineContinuousERPMTelemetry
  | SignalLineContinuousERPMPeriodTelemetry
  | SignalLineTemperatureTelemetry
  | SignalLineVoltageTelemetry
  | SignalLineCurrentTelemetry
  | SignalLineConsumptionTelemetry
  | SignalLineERPMTelemetry
  | SignalLineERPMPeriodTelemetry
  deriving Repr, DecidableEq

/-- The numeric discriminant of each `Command` (`command as u16` in the
source): `MotorStop = 0` through `ExtendedTelemetryDisable = 14`,
`SpinDirectionNormal = 20` through `SignalLineContinuousERPMPeriodTelemetry
= 35`, `SignalLineTemperatureTelemetry = 42` through
`SignalLineERPMPeriodTelemetry = 47`. -/
def Command.code : Command → Nat
  | .MotorStop => 0
  | .Beep1 => 1
  | .Beep2 => 2
  | .Beep3 => 3
  | .Beep4 => 4
  | .Beep5 => 5
  | .ESCInfo => 6
  | .SpinDirection1 => 7
  | .SpinDirection2 => 8
  | .ThreeDModeOn => 9
  | .ThreeDModeOff => 10
  | .SettingsRequest => 11
  | .SettingsSave => 12
  | .ExtendedTelemetryEnable => 13
  | .ExtendedTelemetryDisable => 14
  | .SpinDirectionNormal => 20
  | .SpinDirectonReversed => 21
  | .Led0On => 22
  | .Led1On => 23
  | .Led2On => 24
  | .Led3On => 25
  | .Led0Off => 26
  | .Led1Off => 27
  | .Led2Off => 28
  | .Led3Off => 29
  | .AudioStreamModeToggle => 30
  | .SilentModeToggle => 31
  | .SignalLineTelemetryEnable => 32
  | .SignalLineTelemetryDisable => 33
  | .SignalLineContinuousERPMTelemetry => 34
  | .SignalLineContinuousERPMPeriodTelemetry => 35
  | .SignalLineTemperatureTelemetry => 42
  | .SignalLineVoltageTelemetry => 43
  | .SignalLineCurrentTelemetry => 44
  | .SignalLineConsumptionTelemetry => 45
  | .SignalLineERPMTelemetry => 46
  | .SignalLineERPMPeriodTelemetry => 47

/-- `Frame::command(command, request_telemetry)`: creates a new frame with the
given `Command` and telemetry request; `(command as u16) << 5` is `u16`
arithmetic, hence the `% 65536`. -/
def Frame.command (command : Command) (request_telemetry : Bool) : Frame :=
  let frame : Frame := { inner := (command.code <<< 5) % 65536 }
  let frame := if request_telemetry then { inner := frame.inner ||| 0x10 } else frame
  frame.compute_crc

/-- `Frame::speed`: `(self.inner >> 5) - 48` where the subtraction is `u16`
wrapping subtraction, modelled as `(x + 65536 - 48) % 65536`. -/
def Frame.speed (f : Frame) : Nat :=
  (f.inner >>> 5 + 65536 - 48) % 65536

/-- `Frame::telemetry_enabled`: `self.inner & 0x10 != 0`. -/
def Frame.telemetry_enabled (f : Frame) : Bool :=
  f.inner &&& 0x10 != 0

/-- `Frame::crc`: `self.inner & 0x0F`. -/
def Frame.crc (f : Frame) : Nat :=
  f.inner &&& 0x0F

/-- The loop body of `Frame::duty_cycles`, unrolled over the 17 array slots:
slot `i` is `max_duty_cycle * 3 / 4` unless the tested bit
(`value & 0x8000`) is zero, in which case `max_duty_cycle * 3 / 8`; `value`
is shifted left one bit (`u16` wrap) between slots.  The `u16` products
`max_duty_cycle * 3` wrap, hence the `% 65536`. -/
def dutyLoop (max_duty_cycle : Nat) : Nat → Nat → List Nat
  | _, 0 => []
  | value, n + 1 =>
    (if value &&& 0x8000 = 0 then max_duty_cycle * 3 % 65536 / 8
     else max_duty_cycle * 3 % 65536 / 4)
      :: dutyLoop max_duty_cycle ((value <<< 1) % 65536) n

/-- `Frame::duty_cycles(max_duty_cycle)`: an array of 17 duty cycles for PWM
DMA; the loop fills all 17 slots from the bits of `inner`, then
`rv[16] = 0` overwrites the final slot. -/
def Frame.duty_cycles (f : Frame) (max_duty_cycle : Nat) : List Nat :=
  (dutyLoop max_duty_cycle f.inner 17).set 16 0

/-- The checksum folding function of `compute_crc`, abstracted over the 12-bit
value+telemetry field `v`. -/
def crcOf (v : Nat) : Nat :=
  (v ^^^ (v >>> 4) ^^^ (v >>> 8)) &&& 0x0F

/-! Helper lemmas about the bit-level building blocks. -/

lemma crcOf_lt (v : Nat) : crcOf v < 16 := by
  have h : crcOf v ≤ 15 := by
    unfold crcOf
    exact Nat.and_le_right
  omega

lemma shiftLeft_five_mod {p : Nat} (hp : p < 2048) : (p <<< 5) % 65536 = p * 32 := by
  rw [Nat.shiftLeft_eq]
  have h : p * 2 ^ 5 = p * 32 := by norm_num
  rw [h]
  exact Nat.mod_eq_of_lt (by omega)

lemma or_sixteen (p : Nat) : (p * 32) ||| 16 = p * 32 + 16 := by
  have h := Nat.mul_add_lt_is_or (show 16 < 2 ^ 5 by norm_num) p
  rw [Nat.mul_comm (2 ^ 5) p] at h
  norm_num at h
  exact h.symm

lemma or_low {x c : Nat} (hx : x % 16 = 0) (hc : c < 16) : x ||| c = x + c := by
  have h := Nat.mul_add_lt_is_or (show c < 2 ^ 4 by norm_num; omega) (x / 16)
  norm_num at h
  have hx2 : 16 * (x / 16) = x := by omega
  rw [hx2] at h
  exact h.symm

lemma and_fifteen (x : Nat) : x &&& 15 = x % 16 := by
  have h := Nat.and_pow_two_sub_one_eq_mod x 4
  norm_num at h
  exact h

lemma and_sixteen (x : Nat) : x &&& 16 = if x / 16 % 2 = 1 then 16 else 0 := by
  have h := Nat.and_two_pow x 4
  rw [Nat.testBit_to_div_mod] at h
  norm_num at h
  rw [h]
  by_cases hx : x / 16 % 2 = 1 <;> simp [hx]

/-- `compute_crc` on a word whose low 4 bits are clear adds the checksum of
the high 12 bits. -/
lemma compute_crc_inner {x : Nat} (hx : x % 16 = 0) :
    (Frame.compute_crc ⟨x⟩).inner = x + crcOf (x / 16) := by
  show x ||| crcOf (x >>> 4) = x + crcOf (x / 16)
  rw [Nat.shiftRight_eq_div_pow]
  norm_num
  exact or_low hx (crcOf_lt _)

lemma Command.code_lt (c : Command) : c.code < 48 := by
  cases c <;> decide

/-- `Frame.new` on an in-range speed, written as `compute_crc` of the
assembled base word. -/
lemma new_eq_of_lt {s : Nat} (t : Bool) (hs : s < 2000) :
    Frame.new s t
      = some (Frame.compute_crc ⟨(s + 48) * 32 + (if t then 16 else 0)⟩) := by
  have hns : ¬ (s ≥ 2000) := by omega
  have hshift : ((s + 48) <<< 5) % 65536 = (s + 48) * 32 :=
    shiftLeft_five_mod (by omega)
  cases t
  · simp [Frame.new, hns, hshift]
  · simp [Frame.new, hns, hshift, or_sixteen]

/-- `Frame.command`, written as `compute_crc` of the assembled base word. -/
lemma command_eq (c : Command) (t : Bool) :
    Frame.command c t
      = Frame.compute_crc ⟨c.code * 32 + (if t then 16 else 0)⟩ := by
  have hshift : (c.code <<< 5) % 65536 = c.code * 32 :=
    shiftLeft_five_mod (by have := Command.code_lt c; omega)
  cases t
  · simp [Frame.command, hshift]
  · simp [Frame.command, hshift, or_sixteen]

/-- Every frame produced by `Frame.new` decomposes as shifted payload plus
telemetry bit plus checksum. -/
lemma new_inner_spec {s : Nat} {t : Bool} {f : Frame}
    (h : Frame.new s t = some f) :
    s < 2000 ∧
      f.inner = (s + 48) * 32 + (if t then 16 else 0)
        + crcOf ((s + 48) * 2 + (if t then 1 else 0)) := by
  have hs : s < 2000 := by
    by_cases hs : s ≥ 2000
    · simp [Frame.new, hs] at h
    · omega
  refine ⟨hs, ?_⟩
  rw [new_eq_of_lt t hs] at h
  have hx : ((s + 48) * 32 + (if t then 16 else 0)) % 16 = 0 := by
    cases t <;> simp <;> omega
  have hdiv : ((s + 48) * 32 + (if t then 16 else 0)) / 16
      = (s + 48) * 2 + (if t then 1 else 0) := by
    cases t <;> simp <;> omega
  have := compute_crc_inner hx
  rw [hdiv] at this
  cases h
  exact this

/-- Every frame produced by `Frame.command` decomposes as shifted command
code plus telemetry bit plus checksum. -/
lemma command_inner_spec (c : Command) (t : Bool) :
    (Frame.command c t).inner = c.code * 32 + (if t then 16 else 0)
      + crcOf (c.code * 2 + (if t then 1 else 0)) := by
  rw [command_eq c t]
  have hx : (c.code * 32 + (if t then 16 else 0)) % 16 = 0 := by
    cases t <;> simp <;> omega
  have hdiv : (c.code * 32 + (if t then 16 else 0)) / 16
      = c.code * 2 + (if t then 1 else 0) := by
    cases t <;> simp <;> omega
  have := compute_crc_inner hx
  rw [hdiv] at this
  exact this

/-- Reading the accessors off a decomposed frame word. -/
lemma fields_of_decomp {f : Frame} {p : Nat} {t : Bool} (hp : p < 2048)
    (hinner : f.inner = p * 32 + (if t then 16 else 0)
      + crcOf (p * 2 + (if t then 1 else 0))) :
    f.inner >>> 5 = p ∧
      f.inner >>> 4 = p * 2 + (if t then 1 else 0) ∧
      f.crc = crcOf (p * 2 + (if t then 1 else 0)) ∧
      f.telemetry_enabled = t ∧
      f.inner &&& 0x10 = (if t then 0x10 else 0) ∧
      f.inner < 65536 := by
  have hc := crcOf_lt (p * 2 + (if t then 1 else 0))
  have hcrc : f.crc = f.inner % 16 := and_fifteen f.inner
  have h16 := and_sixteen f.inner
  cases t with
  | false =>
    simp only [if_neg Bool.false_ne_true] at hinner hc ⊢
    have hparity : ¬ (f.inner / 16 % 2 = 1) := by omega
    rw [if_neg hparity] at h16
    refine ⟨by omega, by omega, by omega, ?_, h16, by omega⟩
    simp [Frame.telemetry_enabled, h16]
  | true =>
    simp at hinner hc ⊢
    have hparity : f.inner / 16 % 2 = 1 := by omega
    rw [if_pos hparity] at h16
    refine ⟨by omega, by omega, by omega, ?_, h16, by omega⟩
    simp [Frame.telemetry_enabled, h16]

/-! Lemmas about the duty-cycle loop. -/

lemma dutyLoop_length (m : Nat) : ∀ n v, (dutyLoop m v n).length = n := by
  intro n
  induction n with
  | zero => intro v; rfl
  | succ k ih =>
    intro v
    simp [dutyLoop, ih]

/-- Slot `i` of the loop output, in terms of the bits of the initial value. -/
lemma dutyLoop_get (m : Nat) :
    ∀ n v i, v < 65536 → i < n →
      (dutyLoop m v n)[i]? =
        some (if v * 2 ^ i % 65536 &&& 0x8000 = 0
          then m * 3 % 65536 / 8 else m * 3 % 65536 / 4) := by
  intro n
  induction n with
  | zero =>
    intro v i hv hi
    omega
  | succ k ih =>
    intro v i hv hi
    cases i with
    | zero =>
      simp [dutyLoop, Nat.mod_eq_of_lt hv]
    | succ j =>
      have hlt : (v <<< 1) % 65536 < 65536 := Nat.mod_lt _ (by norm_num)
      have htail := ih ((v <<< 1) % 65536) j hlt (by omega)
      have hval : (v <<< 1) % 65536 * 2 ^ j % 65536 = v * 2 ^ (j + 1) % 65536 := by
        rw [Nat.shiftLeft_eq, Nat.mod_mul_mod, Nat.mul_assoc, ← pow_add,
          Nat.add_comm 1 j]
      rw [dutyLoop, List.getElem?_cons_succ, htail, hval]

/-- Every slot the loop produces is one of the two duty levels. -/
lemma dutyLoop_mem (m : Nat) :
    ∀ n v x, x ∈ dutyLoop m v n →
      x = m * 3 % 65536 / 8 ∨ x = m * 3 % 65536 / 4 := by
  intro n
  induction n with
  | zero =>
    intro v x hx
    simp [dutyLoop] at hx
  | succ k ih =>
    intro v x hx
    rw [dutyLoop] at hx
    rcases List.mem_cons.mp hx with h | h
    · by_cases hb : v &&& 0x8000 = 0
      · left; rw [h, if_pos hb]
      · right; rw [h, if_neg hb]
    · exact ih _ _ h

/-- The tested bit of slot `i` is bit `15 - i` of the initial value. -/
lemma high_bit_test {v : Nat} (i : Nat) (hi : i ≤ 15) :
    (v * 2 ^ i % 65536 &&& 0x8000 = 0) ↔ v.testBit (15 - i) = false := by
  have h1 : (65536 : Nat) = 2 ^ 16 := by norm_num
  have h2 : (0x8000 : Nat) = 2 ^ 15 := by norm_num
  rw [h1, h2, Nat.and_two_pow, Nat.testBit_mod_two_pow, Nat.mul_comm v (2 ^ i),
    Nat.testBit_mul_pow_two]
  have hge : 15 ≥ i := hi
  simp [hge]

/-- Reassembling a decomposed frame word from its value field, telemetry bit
and checksum with shift and OR. -/
lemma decomp_reassemble {f : Frame} {p : Nat} {t : Bool}
    (hinner : f.inner = p * 32 + (if t then 16 else 0)
      + crcOf (p * 2 + (if t then 1 else 0))) :
    f.inner = (p <<< 5) ||| (if t then 0x10 else 0) ||| (f.inner &&& 0x0F) := by
  have hc := crcOf_lt (p * 2 + (if t then 1 else 0))
  have hcrc15 : f.inner &&& 0x0F = crcOf (p * 2 + (if t then 1 else 0)) := by
    rw [and_fifteen]
    cases t <;> simp at hinner hc ⊢ <;> omega
  have e1 : (p <<< 5) = p * 32 := by
    rw [Nat.shiftLeft_eq]
  cases t with
  | false =>
    simp at hinner hc hcrc15 ⊢
    rw [hcrc15, e1, or_low (by omega) hc]
    omega
  | true =>
    simp at hinner hc hcrc15 ⊢
    rw [hcrc15, e1, or_sixteen, or_low (by omega) hc]
    omega

/-! The claims. -/

/-- Claim C1: every frame constructed by `Frame.new` (speed < 2000) or by
`Frame.command` has its low 4 bits (`Frame.crc`) equal to
`(v ^^^ (v >>> 4) ^^^ (v >>> 8)) &&& 0x0F`, where `v` is the raw word
shifted right by 4 bits (the 12-bit value+telemetry field); no constructed
frame has a checksum inconsistent with its value field and telemetry bit. -/
theorem claim1_crc_consistent :
    (∀ s t f, Frame.new s t = some f →
      f.crc = ((f.inner >>> 4) ^^^ (f.inner >>> 4 >>> 4)
        ^^^ (f.inner >>> 4 >>> 8)) &&& 0x0F) ∧
    (∀ c t, (Frame.command c t).crc =
      (((Frame.command c t).inner >>> 4) ^^^ ((Frame.command c t).inner >>> 4 >>> 4)
        ^^^ ((Frame.command c t).inner >>> 4 >>> 8)) &&& 0x0F) := by
  constructor
  · intro s t f h
    obtain ⟨hs, hinner⟩ := new_inner_spec h
    obtain ⟨-, h4, hcrc, -, -, -⟩ := fields_of_decomp (by omega) hinner
    show f.crc = crcOf (f.inner >>> 4)
    rw [h4, hcrc]
  · intro c t
    have hinner := command_inner_spec c t
    obtain ⟨-, h4, hcrc, -, -, -⟩ :=
      fields_of_decomp (by have := Command.code_lt c; omega) hinner
    show _ = crcOf ((Frame.command c t).inner >>> 4)
    rw [h4, hcrc]

/-- Witness for claim C1 at `Frame.new 998 false`. -/
theorem claim1_witness :
    (Frame.mk 33478).crc
      = (((Frame.mk 33478).inner >>> 4) ^^^ ((Frame.mk 33478).inner >>> 4 >>> 4)
        ^^^ ((Frame.mk 33478).inner >>> 4 >>> 8)) &&& 0x0F :=
  claim1_crc_consistent.1 998 false (Frame.mk 33478) (by decide)

/-- Claim C2: `duty_cycles` emits the 16 bits of the raw word MSB first: for
`i < 16`, slot `i` is `max_duty_cycle * 3 / 4` (u16 arithmetic, truncating
division) when bit `15 - i` of the raw word is 1, else
`max_duty_cycle * 3 / 8`. -/
theorem claim2_duty_bits (f : Frame) (max_duty_cycle i : Nat)
    (hf : f.inner < 65536) (hm : max_duty_cycle < 65536) (hi : i < 16) :
    (f.duty_cycles max_duty_cycle)[i]? =
      some (if f.inner.testBit (15 - i)
        then max_duty_cycle * 3 % 65536 / 4
        else max_duty_cycle * 3 % 65536 / 8) := by
  unfold Frame.duty_cycles
  rw [List.getElem?_set_ne (show 16 ≠ i by omega),
    dutyLoop_get max_duty_cycle 17 f.inner i hf (by omega)]
  have hbit := high_bit_test (v := f.inner) i (by omega)
  cases hb : f.inner.testBit (15 - i) with
  | false =>
    rw [if_pos (hbit.mpr hb)]
    simp [hb]
  | true =>
    have hcond : ¬ (f.inner * 2 ^ i % 65536 &&& 0x8000 = 0) := by
      rw [hbit, hb]
      simp
    rw [if_neg hcond]
    simp [hb]

/-- Witness for claim C2 at `Frame.new 998 false`, `max_duty_cycle = 100`,
slot 0. -/
theorem claim2_witness :
    ((Frame.mk 33478).duty_cycles 100)[0]? =
      some (if (Frame.mk 33478).inner.testBit (15 - 0)
        then 100 * 3 % 65536 / 4 else 100 * 3 % 65536 / 8) :=
  claim2_duty_bits (Frame.mk 33478) 100 0 (by decide) (by decide) (by decide)

/-- Claim C3: for every throttle below 2000 and every telemetry flag,
`Frame.new` succeeds and `speed` recovers exactly the throttle. -/
theorem claim3_speed_roundtrip (s : Nat) (t : Bool) (hs : s < 2000) :
    ∃ f, Frame.new s t = some f ∧ f.speed = s := by
  obtain ⟨f, hf⟩ : ∃ f, Frame.new s t = some f := ⟨_, new_eq_of_lt t hs⟩
  obtain ⟨-, hinner⟩ := new_inner_spec hf
  obtain ⟨h5, -, -, -, -, -⟩ := fields_of_decomp (by omega) hinner
  refine ⟨f, hf, ?_⟩
  unfold Frame.speed
  rw [h5]
  omega

/-- Witness for claim C3 at throttle 1000. -/
theorem claim3_witness :
    ∃ f, Frame.new 1000 false = some f ∧ f.speed = 1000 :=
  claim3_speed_roundtrip 1000 false (by decide)

/-- Claim C4: `Frame.new` returns `none` exactly when the speed is at least
2000; no frame is constructed in the failure case. -/
theorem claim4_out_of_range (s : Nat) (t : Bool) :
    Frame.new s t = none ↔ 2000 ≤ s := by
  constructor
  · intro h
    by_cases hs : s < 2000
    · rw [new_eq_of_lt t hs] at h
      exact absurd h (by simp)
    · omega
  · intro h
    simp [Frame.new, show s ≥ 2000 from h]

/-- Claim C5: for every frame and every `max_duty_cycle`, `duty_cycles`
returns exactly 17 entries and the final entry (index 16) is 0. -/
theorem claim5_length_and_reset (f : Frame) (max_duty_cycle : Nat) :
    (f.duty_cycles max_duty_cycle).length = 17 ∧
      (f.duty_cycles max_duty_cycle)[16]? = some 0 := by
  constructor
  · simp [Frame.duty_cycles, dutyLoop_length]
  · unfold Frame.duty_cycles
    rw [List.getElem?_set_self (by rw [dutyLoop_length]; omega)]

/-- Claim C6: the raw word of every constructed frame decomposes as
`(value_field << 5) | telemetry_bit | checksum`: bits 15..5 hold the value
field (throttle + 48 for `Frame.new`, the command code for `Frame.command`),
bit 4 holds the telemetry flag, bits 3..0 hold the checksum. -/
theorem claim6_raw_decomposition :
    (∀ s t f, Frame.new s t = some f →
      f.inner >>> 5 = s + 48 ∧
        f.inner &&& 0x10 = (if t then 0x10 else 0) ∧
        f.inner = ((s + 48) <<< 5) ||| (if t then 0x10 else 0)
          ||| (f.inner &&& 0x0F)) ∧
    (∀ c t,
      (Frame.command c t).inner >>> 5 = c.code ∧
        (Frame.command c t).inner &&& 0x10 = (if t then 0x10 else 0) ∧
        (Frame.command c t).inner = (c.code <<< 5) ||| (if t then 0x10 else 0)
          ||| ((Frame.command c t).inner &&& 0x0F)) := by
  constructor
  · intro s t f h
    obtain ⟨hs, hinner⟩ := new_inner_spec h
    obtain ⟨h5, -, -, -, h16, -⟩ := fields_of_decomp (by omega) hinner
    exact ⟨h5, h16, decomp_reassemble hinner⟩
  · intro c t
    have hcode := Command.code_lt c
    have hinner := command_inner_spec c t
    obtain ⟨h5, -, -, -, h16, -⟩ := fields_of_decomp (by omega) hinner
    exact ⟨h5, h16, decomp_reassemble hinner⟩

/-- Witness for claim C6 at `Frame.new 998 false`. -/
theorem claim6_witness :
    (Frame.mk 33478).inner >>> 5 = 998 + 48 ∧
      (Frame.mk 33478).inner &&& 0x10 = (if false then 0x10 else 0) ∧
      (Frame.mk 33478).inner = ((998 + 48) <<< 5) ||| (if false then 0x10 else 0)
        ||| ((Frame.mk 33478).inner &&& 0x0F) :=
  claim6_raw_decomposition.1 998 false (Frame.mk 33478) (by decide)

/-- Claim C7: the telemetry flag round-trips through `Frame.new`:
`telemetry_enabled` returns exactly the requested flag. -/
theorem claim7_telemetry_roundtrip (s : Nat) (t : Bool) (f : Frame)
    (h : Frame.new s t = some f) : f.telemetry_enabled = t := by
  obtain ⟨hs, hinner⟩ := new_inner_spec h
  exact (fields_of_decomp (by omega) hinner).2.2.2.1

/-- Witness for claim C7 at `Frame.new 998 true`. -/
theorem claim7_witness : (Frame.mk 33495).telemetry_enabled = true :=
  claim7_telemetry_roundtrip 998 true (Frame.mk 33495) (by decide)

/-- Claim C8: the concrete vectors: speed 998 without telemetry yields
checksum 0x06, speed 998 with telemetry yields checksum 0x07, and speed 50
round-trips through `speed`. -/
theorem claim8_concrete_vectors :
    (Frame.new 998 false).map Frame.crc = some 6 ∧
    (Frame.new 998 true).map Frame.crc = some 7 ∧
    (Frame.new 50 false).map Frame.speed = some 50 := by
  decide

/-- Claim C9: `Frame.command` always succeeds (yielding a well-formed u16
word) for every enumerated command and telemetry flag, and `duty_cycles` is
total over the u16 domain: for every frame and `max_duty_cycle` it yields 17
well-formed u16 duty values, the internal u16 products
`max_duty_cycle * 3 / 4` and `max_duty_cycle * 3 / 8` always evaluating. -/
theorem claim9_totality :
    (∀ c t, (Frame.command c t).inner < 65536) ∧
    (∀ (f : Frame) (max_duty_cycle : Nat), f.inner < 65536 → max_duty_cycle < 65536 →
      (f.duty_cycles max_duty_cycle).length = 17 ∧
        ∀ x ∈ f.duty_cycles max_duty_cycle, x < 65536) := by
  constructor
  · intro c t
    have hinner := command_inner_spec c t
    exact (fields_of_decomp (by have := Command.code_lt c; omega) hinner).2.2.2.2.2
  · intro f m hf hm
    refine ⟨by simp [Frame.duty_cycles, dutyLoop_length], ?_⟩
    intro x hx
    rcases List.mem_or_eq_of_mem_set hx with h | h
    · have hlt : m * 3 % 65536 < 65536 := Nat.mod_lt _ (by norm_num)
      rcases dutyLoop_mem m 17 f.inner x h with h8 | h4
      · omega
      · omega
    · omega

/-- Witness for claim C9 at `Frame.new 998 false`, `max_duty_cycle = 100`. -/
theorem claim9_witness :
    ((Frame.mk 33478).duty_cycles 100).length = 17 ∧
      ∀ x ∈ (Frame.mk 33478).duty_cycles 100, x < 65536 :=
  claim9_totality.2 (Frame.mk 33478) 100 (by decide) (by decide)

/-- Claim C10: `speed` on a frame from `Frame.command` hits the u16
subtraction underflow: the minuend `raw >>> 5` is below 48, the wrapped
result is at least 2000 (out of the throttle range) and differs from the
command code; `speed` on a frame from `Frame.new` never underflows, its
minuend being at least 48. -/
theorem claim10_speed_domain :
    (∀ c t, (Frame.command c t).inner >>> 5 < 48 ∧
      2000 ≤ (Frame.command c t).speed ∧
      (Frame.command c t).speed ≠ c.code) ∧
    (∀ s t f, Frame.new s t = some f → 48 ≤ f.inner >>> 5) := by
  constructor
  · intro c t
    have hcode := Command.code_lt c
    have hinner := command_inner_spec c t
    obtain ⟨h5, -, -, -, -, -⟩ := fields_of_decomp (by omega) hinner
    refine ⟨by omega, ?_, ?_⟩ <;> (unfold Frame.speed; rw [h5]; omega)
  · intro s t f h
    obtain ⟨hs, hinner⟩ := new_inner_spec h
    obtain ⟨h5, -, -, -, -, -⟩ := fields_of_decomp (by omega) hinner
    omega

/-- Witness for claim C10 at `Frame.new 998 false`. -/
theorem claim10_witness : 48 ≤ (Frame.mk 33478).inner >>> 5 :=
  claim10_speed_domain.2 998 false (Frame.mk 33478) (by decide)

end Dshot
